import Mathlib

/-!
Verification development for the rl4co meta-training loop
(`rl4co/utils/meta_trainer.py`, class `ReptileCallback`) and the JSSP
environment action mask / reward (`rl4co/envs/scheduling/jssp/env.py`,
class `JSSPEnv`).

Modelling conventions:
- Model parameters (PyTorch state dicts with all keys present) are total
  functions `K → ℚ` from an abstract key type; floating point scalars are
  modelled as rationals.
- The random draws of `random.sample(self.task_set, 1)[0]` are abstracted
  as an oracle `draws : ℕ → ℕ` giving, for each loop iteration, the index
  of the chosen element of the task set (taken modulo its length).
- `torch.softmax(x) = exp(x) / sum(exp(x))`; the library exponential is
  abstracted as an oracle `expf : ℚ → ℚ` applied elementwise.
- For error-handling claims about missing dictionary keys, state dicts are
  additionally modelled as association lists `List (String × ℚ)` with
  `Option`-valued lookup, so that a Python `KeyError` becomes `none`.
-/

/-- The mutable fields of `pl_module.env.generator` touched by
`ReptileCallback._load_task`: the problem size `num_loc` and, when the
generator has one (`hasCapacity`), a `capacity` field. -/
structure Generator where
  numLoc : ℕ
  hasCapacity : Bool
  capacity : ℤ
deriving Repr, DecidableEq

/-- The cross-epoch state held by `ReptileCallback`: `num_tasks`, `alpha`,
`alpha_decay`, `sch_bar`, the enumerated `task_set` (a size-`n` task tuple
`(n,)` is modelled by the number `n`), `meta_model_state_dict`,
`task_models`, `selected_tasks` and the weight vector `w`. -/
structure MetaState (K : Type) where
  numTasks : ℕ
  alpha : ℚ
  alphaDecay : ℚ
  schBar : ℚ
  taskSet : List ℕ
  metaModelStateDict : K → ℚ
  taskModels : List (K → ℚ)
  selectedTasks : List ℕ
  w : List ℚ

/-- `ReptileCallback._alpha_scheduler`:
`self.alpha = max(self.alpha * self.alpha_decay, 0.0001)`. -/
def alphaScheduler (alpha alphaDecay : ℚ) : ℚ :=
  max (alpha * alphaDecay) (1 / 10000)

/-- Iterated application of `alphaScheduler` (`n` successive calls). -/
def alphaIter (alphaDecay : ℚ) : ℕ → ℚ → ℚ
  | 0, a => a
  | n + 1, a => alphaIter alphaDecay n (alphaScheduler a alphaDecay)

/-- `torch.softmax` on a vector: `exp(x_i) / Σ_j exp(x_j)`, with the
library exponential abstracted as `expf`. -/
def softmax (expf : ℚ → ℚ) (xs : List ℚ) : List ℚ :=
  xs.map (fun x => expf x / (xs.map expf).sum)

/-- `ReptileCallback._sample_task`: draws `num_tasks` elements of
`task_set` (choices supplied by the oracle `draws`) into
`selected_tasks`, and sets `w = softmax([1.0] * num_tasks)`. -/
def sampleTask {K : Type} (draws : ℕ → ℕ) (expf : ℚ → ℚ) (s : MetaState K) :
    MetaState K :=
  { s with
    selectedTasks :=
      (List.range s.numTasks).map
        (fun b => s.taskSet.getD (draws b % s.taskSet.length) 0)
    w := softmax expf (List.replicate s.numTasks 1) }

/-- The capacity formula of `ReptileCallback._load_task`:
`math.ceil(30 + task_params[0] / 5) if task_params[0] >= 20 else 20`. -/
def taskCapacity (n : ℕ) : ℤ :=
  if 20 ≤ n then ⌈(30 : ℚ) + (n : ℚ) / 5⌉ else 20

/-- `ReptileCallback._load_task`: writes `selected_tasks[task_idx]` into
the generator's `num_loc` and, when the generator has a `capacity`
field, sets it by `taskCapacity`. (The weight `task_w = self.w[task_idx]`
is read in the source but never used.) -/
def loadTask {K : Type} (s : MetaState K) (taskIdx : ℕ) (g : Generator) :
    Generator :=
  let tp := s.selectedTasks.getD taskIdx 0
  if g.hasCapacity then
    { g with numLoc := tp, capacity := taskCapacity tp }
  else
    { g with numLoc := tp }

/-- The outer-loop Reptile update of `ReptileCallback.on_train_epoch_end`
(total-function form, all keys present): for every key `k`,
`meta[k] + alpha * mean_t (task_models[t][k] - meta[k])`, the mean over
the stacked per-task deltas being their sum divided by the count. -/
def reptileUpdate {K : Type} (meta : K → ℚ) (taskModels : List (K → ℚ))
    (alpha : ℚ) : K → ℚ := fun k =>
  meta k + alpha * ((taskModels.map (fun fw => fw k - meta k)).sum /
    (taskModels.length : ℚ))

/-- Result of `on_train_epoch_start`: the updated callback state, the
state dict loaded in the live model, and the learning rate of the freshly
built optimizer. -/
structure EpochStartResult (K : Type) where
  cb : MetaState K
  model : K → ℚ
  lr : ℚ

/-- `ReptileCallback.on_train_epoch_start`: decay `alpha`; if
`epoch % num_tasks == 0` snapshot the live model as
`meta_model_state_dict` and clear `task_models`, else load
`meta_model_state_dict` back into the live model; rebuild the optimizer
with the old learning rate times a one-time `0.1` decay exactly when
`epoch + 1 == int(sch_bar * max_epochs)`. -/
def onTrainEpochStart {K : Type} (epoch maxEpochs : ℕ) (lr : ℚ)
    (s : MetaState K) (model : K → ℚ) : EpochStartResult K :=
  let s1 := { s with alpha := alphaScheduler s.alpha s.alphaDecay }
  let lrDecay : ℚ :=
    if ((epoch : ℤ) + 1) = ⌊s.schBar * (maxEpochs : ℚ)⌋ then 1 / 10 else 1
  if epoch % s1.numTasks = 0 then
    { cb := { s1 with metaModelStateDict := model, taskModels := [] }
      model := model
      lr := lr * lrDecay }
  else
    { cb := s1
      model := s1.metaModelStateDict
      lr := lr * lrDecay }

/-- Result of `on_train_epoch_end`: the updated callback state, the state
dict held by the live model afterwards, and the mutated generator. -/
structure EpochEndResult (K : Type) where
  cb : MetaState K
  model : K → ℚ
  gen : Generator

/-- `ReptileCallback.on_train_epoch_end`: append the live model to
`task_models`; if `(epoch+1) % num_tasks == 0`, load the Reptile update
into the live model and resample tasks; finally load task
`(epoch+1) % num_tasks` into the generator. -/
def onTrainEpochEnd {K : Type} (epoch : ℕ) (draws : ℕ → ℕ) (expf : ℚ → ℚ)
    (s : MetaState K) (model : K → ℚ) (g : Generator) : EpochEndResult K :=
  let s1 := { s with taskModels := s.taskModels ++ [model] }
  let model' :=
    if (epoch + 1) % s1.numTasks = 0 then
      reptileUpdate s1.metaModelStateDict s1.taskModels s1.alpha
    else model
  let s2 := if (epoch + 1) % s1.numTasks = 0 then sampleTask draws expf s1 else s1
  { cb := s2
    model := model'
    gen := loadTask s2 ((epoch + 1) % s2.numTasks) g }

/-- `ReptileCallback.on_fit_start`: sample a batch of tasks, then
overwrite `selected_tasks[0]` with the generator's current `num_loc`. -/
def onFitStart {K : Type} (draws : ℕ → ℕ) (expf : ℚ → ℚ) (genNumLoc : ℕ)
    (s : MetaState K) : MetaState K :=
  let s1 := sampleTask draws expf s
  { s1 with selectedTasks := s1.selectedTasks.set 0 genNumLoc }

/-- The enumerated task set built by `ReptileCallback.__init__` for
`data_type == "size"`: the tuples `(n,)` for `n` in
`range(min_size, max_size + 1)`, modelled as the list of those `n`. -/
def taskSetOf (minSize maxSize : ℕ) : List ℕ :=
  List.range' minSize (maxSize + 1 - minSize)

/-- Fallible elementwise mapping, the semantics of a Python comprehension
whose body may raise (`none` = the whole comprehension raises). -/
def optionMapList {α β : Type} (f : α → Option β) : List α → Option (List β)
  | [] => some []
  | x :: xs =>
    match f x, optionMapList f xs with
    | some y, some ys => some (y :: ys)
    | _, _ => none

/-- A PyTorch state dict as an association list (key-to-tensor mapping,
scalar tensors as rationals). -/
abbrev StateDict : Type := List (String × ℚ)

/-- Python dictionary subscript `fast_weight[key]`: `none` models a
`KeyError`. -/
def sdGet (sd : StateDict) (k : String) : Option ℚ :=
  (sd.find? (fun p => p.1 == k)).map (fun p => p.2)

/-- The dict comprehension of `ReptileCallback.on_train_epoch_end` lines
79-82 with Python `KeyError` semantics made explicit: for each key of
`meta_model_state_dict`, look the key up in every task model; if any
lookup fails the whole aggregation fails (`none`) and nothing is loaded
into the live model. -/
def reptileUpdateChecked (meta : StateDict) (taskModels : List StateDict)
    (alpha : ℚ) : Option StateDict :=
  optionMapList
    (fun kv =>
      (optionMapList (fun fw => (sdGet fw kv.1).map (fun v => v - kv.2))
          taskModels).map
        (fun deltas =>
          (kv.1, kv.2 + alpha * (deltas.sum / (taskModels.length : ℚ)))))
    meta

/-- `JSSPEnv.get_action_mask`, one batch instance: `availability` is the
output of `FJSPEnv._get_job_machine_availability` (entry `true` = the
job-machine pair is unavailable); the result is the concatenated mask
`[no-op] ++ jobs` where `true` means feasible:
`no_op_mask = ~done` when `mask_no_ops` else
`~job_in_process.any() & ~done`, the job part is the all-machines
reduction, and the returned mask is `cat(~no_op_mask, ~action_mask)`. -/
def get_action_mask (maskNoOps : Bool) (availability : List (List Bool))
    (done : Bool) (jobInProcess : List Bool) : List Bool :=
  let no_op_mask : Bool :=
    if maskNoOps then !done else (!(jobInProcess.any id)) && !done
  let action_mask := availability.map (fun row => row.all id)
  (!no_op_mask) :: action_mask.map (fun b => !b)

/-- The no-op entry (index 0) of the mask returned by
`JSSPEnv.get_action_mask` (`true` = the no-op action is feasible). -/
def noOpFeasible (maskNoOps : Bool) (availability : List (List Bool))
    (done : Bool) (jobInProcess : List Bool) : Bool :=
  (get_action_mask maskNoOps availability done jobInProcess).headI

/-- Job `j` is idle-and-eligible: not currently in process and some
machine can take its next operation (its availability row is not
all-unavailable). Out-of-range indices count as not idle-and-eligible. -/
def idleEligibleJob (availability : List (List Bool))
    (jobInProcess : List Bool) (j : ℕ) : Bool :=
  (!(jobInProcess.getD j true)) && (!((availability.getD j []).all id))

/-- The spec's sentence on the no-op entry of `JSSPEnv.get_action_mask`,
verbatim: the no-op action is feasible only while the instance is not
finished; and when `mask_no_ops` is disabled, no-op is feasible only if
no job is currently idle-and-eligible. -/
def ClaimNoOpMask : Prop :=
  ∀ (maskNoOps : Bool) (availability : List (List Bool)) (done : Bool)
    (jobInProcess : List Bool),
    (noOpFeasible maskNoOps availability done jobInProcess = true →
      done = false) ∧
    (maskNoOps = false →
      noOpFeasible false availability done jobInProcess = true →
      ∀ j, idleEligibleJob availability jobInProcess j = false)

/-- Modelled from the spec: the makespan of a schedule, the maximum over
machines of their busy-until / maximum finish time (times as integers,
empty maximum 0). -/
def makespan (busyUntil : List ℤ) : ℤ :=
  busyUntil.foldr max 0

/-- Modelled from the spec: `JSSPEnv` inherits its reward from `FJSPEnv`,
whose code is not among the sources; per the spec (and the `JSSPEnv`
docstring), the reward is 0 while the instance is not done, and the
negative makespan at termination. -/
def getReward (busyUntil : List ℤ) (done : Bool) : ℤ :=
  if done then -(makespan busyUntil) else 0

/-- A fixed draw oracle (always the first element of the task set). -/
def zeroDraws : ℕ → ℕ := fun _ => 0

/-- A fixed stand-in for the library exponential (positive at every
input, as the exponential is). -/
def constExp : ℚ → ℚ := fun _ => 3

/-- A concrete live-model state dict. -/
def demoModel : ℕ → ℚ := fun _ => 1

/-- A concrete meta-model state dict. -/
def metaModel : ℕ → ℚ := fun _ => 2

/-- A concrete callback state with `num_tasks = 1`. -/
def soloState : MetaState ℕ :=
  { numTasks := 1, alpha := 1 / 2, alphaDecay := 1, schBar := 9 / 10
    taskSet := taskSetOf 10 10, metaModelStateDict := metaModel
    taskModels := [], selectedTasks := [10], w := [1] }

/-- A concrete callback state with `num_tasks = 4`. -/
def quadState : MetaState ℕ :=
  { numTasks := 4, alpha := 1, alphaDecay := 1, schBar := 9 / 10
    taskSet := taskSetOf 10 10, metaModelStateDict := metaModel
    taskModels := [], selectedTasks := [10, 10, 10, 10], w := [1, 1, 1, 1] }

/-- A concrete callback state with `num_tasks = 2`. -/
def pairState : MetaState ℕ :=
  { numTasks := 2, alpha := 1, alphaDecay := 1, schBar := 9 / 10
    taskSet := taskSetOf 10 10, metaModelStateDict := metaModel
    taskModels := [], selectedTasks := [], w := [] }

/-- A concrete generator without a capacity field. -/
def demoGen : Generator := { numLoc := 10, hasCapacity := false, capacity := 0 }

/-- A concrete generator with a capacity field. -/
def capGen : Generator := { numLoc := 0, hasCapacity := true, capacity := 5 }

/-- Preservation half of the alpha floor: once at or above the floor,
iterated decay stays at or above it (each call ends in a `max` against
the floor). -/
theorem alphaIter_floor_aux (d : ℚ) :
    ∀ (n : ℕ) (a : ℚ), 1 / 10000 ≤ a → 1 / 10000 ≤ alphaIter d n a
  | 0, _, ha => ha
  | n + 1, a, _ => alphaIter_floor_aux d n (alphaScheduler a d) (le_max_right _ _)

/-- C6: each scheduler call sets alpha to `max(alpha * alpha_decay,
0.0001)`; consequently, after at least one decay call, alpha never falls
below `0.0001`. -/
theorem alpha_decay_floor (d a : ℚ) (n : ℕ) (h : 1 ≤ n) :
    alphaScheduler a d = max (a * d) (1 / 10000) ∧
    (1 : ℚ) / 10000 ≤ alphaIter d n a := by
  refine ⟨rfl, ?_⟩
  cases n with
  | zero => omega
  | succ m => exact alphaIter_floor_aux d m (alphaScheduler a d) (le_max_right _ _)

/-- Witness for C6 at `alpha = 5`, `alpha_decay = 1/2`, three calls. -/
theorem alpha_decay_floor_witness :
    alphaScheduler 5 (1 / 2) = max (5 * (1 / 2)) (1 / 10000) ∧
    (1 : ℚ) / 10000 ≤ alphaIter (1 / 2) 3 5 :=
  alpha_decay_floor (1 / 2) 5 3 (by decide)

/-- C5: if every snapshot in `task_models` is identical to
`meta_model_state_dict`, the outer-loop Reptile update returns
`meta_model_state_dict` unchanged at every key. -/
theorem reptile_update_idempotent {K : Type} (meta : K → ℚ)
    (taskModels : List (K → ℚ)) (alpha : ℚ)
    (h : ∀ fw ∈ taskModels, fw = meta) (k : K) :
    reptileUpdate meta taskModels alpha k = meta k := by
  have hz : (taskModels.map (fun fw => fw k - meta k)).sum = 0 := by
    apply List.sum_eq_zero
    intro x hx
    rcases List.mem_map.1 hx with ⟨fw, hfw, rfl⟩
    rw [h fw hfw]
    ring
  unfold reptileUpdate
  rw [hz]
  simp

/-- Witness for C5 with a single snapshot equal to the meta model. -/
theorem reptile_update_idempotent_witness :
    reptileUpdate metaModel [metaModel] 7 0 = metaModel 0 :=
  reptile_update_idempotent metaModel [metaModel] 7
    (fun _ hfw => List.mem_singleton.1 hfw) 0

/-- C4: the reward is exactly 0 at every non-terminal state, and at
termination it equals the negative makespan (the maximum over machines
of their busy-until / maximum finish time). -/
theorem reward_sparsity (busyUntil : List ℤ) (d : Bool) :
    (d = false → getReward busyUntil d = 0) ∧
    (d = true → getReward busyUntil d = -(makespan busyUntil)) := by
  constructor <;> rintro rfl <;> simp [getReward]

/-- C3 (counterexample): the spec's sentence on the no-op mask entry
fails on the code: with `mask_no_ops` enabled and a finished instance
(`done = true`), `get_action_mask` marks the no-op action feasible,
while the sentence allows no-op feasibility only for unfinished
instances. -/
theorem noop_mask_claim_refuted : ClaimNoOpMask = False :=
  eq_false fun h => Bool.noConfusion ((h true [] true []).1 (by decide))

/-- C3 (amended): the no-op entry of the mask returned by
`JSSPEnv.get_action_mask` is feasible exactly when the instance is
finished (`mask_no_ops` enabled); with `mask_no_ops` disabled it is
feasible exactly when some job is in process or the instance is
finished, regardless of idle-and-eligible jobs. -/
theorem noop_mask_characterization (availability : List (List Bool))
    (d : Bool) (jobInProcess : List Bool) :
    noOpFeasible true availability d jobInProcess = d ∧
    noOpFeasible false availability d jobInProcess =
      (jobInProcess.any id || d) := by
  refine ⟨?_, ?_⟩ <;> cases d <;> simp [noOpFeasible, get_action_mask]

/-- C7: loading a task of size `sz` into a generator that has a capacity
field sets `num_loc := sz` and `capacity := ceil(30 + sz/5)` when
`sz >= 20`, else `20`; in particular a size-10 task yields capacity 20. -/
theorem load_task_capacity {K : Type} (s : MetaState K) (idx : ℕ)
    (g : Generator) (sz : ℕ) (hcap : g.hasCapacity = true)
    (hsz : s.selectedTasks.getD idx 0 = sz) :
    (loadTask s idx g).capacity =
      (if 20 ≤ sz then ⌈(30 : ℚ) + (sz : ℚ) / 5⌉ else 20) ∧
    (loadTask s idx g).numLoc = sz ∧ taskCapacity 10 = 20 := by
  have hsz' : s.selectedTasks[idx]?.getD 0 = sz := by
    rw [← List.getD_eq_getElem?_getD]
    exact hsz
  refine ⟨?_, ?_, by decide⟩ <;> simp [loadTask, hcap, taskCapacity, hsz']

/-- Witness for C7: the size-10 task of `soloState` loaded into a
generator with a capacity field. -/
theorem load_task_capacity_witness :
    (loadTask soloState 0 capGen).capacity =
      (if 20 ≤ (10 : ℕ) then ⌈(30 : ℚ) + ((10 : ℕ) : ℚ) / 5⌉ else 20) ∧
    (loadTask soloState 0 capGen).numLoc = 10 ∧ taskCapacity 10 = 20 :=
  load_task_capacity soloState 0 capGen 10 rfl rfl

/-- C1: at the end of every training epoch `e` with
`(e+1) % num_tasks = 0` (the `num_tasks`-th snapshot being the current
live model), the state dict loaded into the live model satisfies, at
every key `k`,
`new k = meta k + alpha * mean over the num_tasks snapshots of (snapshot k - meta k)`. -/
theorem reptile_outer_loop_update_formula {K : Type} (e : ℕ)
    (draws : ℕ → ℕ) (expf : ℚ → ℚ) (s : MetaState K) (m : K → ℚ)
    (g : Generator) (h1 : (e + 1) % s.numTasks = 0)
    (h2 : s.taskModels.length + 1 = s.numTasks) (k : K) :
    (onTrainEpochEnd e draws expf s m g).model k =
      s.metaModelStateDict k + s.alpha *
        (((s.taskModels ++ [m]).map
          (fun fw => fw k - s.metaModelStateDict k)).sum /
          (s.numTasks : ℚ)) := by
  simp [onTrainEpochEnd, reptileUpdate, h1]
  left
  rw [show ((s.taskModels.length : ℚ) + 1) = (s.numTasks : ℚ) from by
    exact_mod_cast h2]

/-- Witness for C1 with `num_tasks = 1` at epoch 0. -/
theorem reptile_outer_loop_update_formula_witness :
    (onTrainEpochEnd 0 zeroDraws constExp soloState demoModel demoGen).model 0 =
      soloState.metaModelStateDict 0 + soloState.alpha *
        (((soloState.taskModels ++ [demoModel]).map
          (fun fw => fw 0 - soloState.metaModelStateDict 0)).sum /
          (soloState.numTasks : ℚ)) :=
  reptile_outer_loop_update_formula 0 zeroDraws constExp soloState demoModel
    demoGen (by decide) (by decide) 0

/-- C2: with `num_tasks = 4` and epoch indices 0..7: at epoch start the
meta-model snapshot (meta parameters copied from the live model, task
snapshots cleared) happens exactly at epochs 0 and 4, every other epoch
start resets the live model to the meta parameters and leaves the
snapshot state unchanged; at epoch end the outer-loop aggregation is
loaded into the live model exactly at epochs 3 and 7. -/
theorem epoch_schedule_scenario (s : MetaState ℕ) (m : ℕ → ℚ)
    (maxEpochs : ℕ) (lr : ℚ) (draws : ℕ → ℕ) (expf : ℚ → ℚ)
    (g : Generator) (e : ℕ) (h4 : s.numTasks = 4) (he : e < 8) :
    ((e = 0 ∨ e = 4) →
      (onTrainEpochStart e maxEpochs lr s m).cb.metaModelStateDict = m ∧
      (onTrainEpochStart e maxEpochs lr s m).cb.taskModels = [] ∧
      (onTrainEpochStart e maxEpochs lr s m).model = m) ∧
    (¬(e = 0 ∨ e = 4) →
      (onTrainEpochStart e maxEpochs lr s m).cb.metaModelStateDict =
        s.metaModelStateDict ∧
      (onTrainEpochStart e maxEpochs lr s m).cb.taskModels = s.taskModels ∧
      (onTrainEpochStart e maxEpochs lr s m).model = s.metaModelStateDict) ∧
    ((e = 3 ∨ e = 7) →
      (onTrainEpochEnd e draws expf s m g).model =
        reptileUpdate s.metaModelStateDict (s.taskModels ++ [m]) s.alpha) ∧
    (¬(e = 3 ∨ e = 7) →
      (onTrainEpochEnd e draws expf s m g).model = m) := by
  refine ⟨?_, ?_, ?_, ?_⟩
  · rintro (rfl | rfl) <;> simp [onTrainEpochStart, h4]
  · intro hc
    interval_cases e <;>
      first
        | exact absurd (Or.inl rfl) hc
        | exact absurd (Or.inr rfl) hc
        | simp [onTrainEpochStart, h4]
  · rintro (rfl | rfl) <;> simp [onTrainEpochEnd, h4]
  · intro hc
    interval_cases e <;>
      first
        | exact absurd (Or.inl rfl) hc
        | exact absurd (Or.inr rfl) hc
        | simp [onTrainEpochEnd, h4]

/-- Witness for C2: snapshot at epoch 4 and aggregation at epoch 3, on a
concrete state with `num_tasks = 4`. -/
theorem epoch_schedule_scenario_witness :
    (onTrainEpochStart 4 10 1 quadState demoModel).cb.taskModels = [] ∧
    (onTrainEpochEnd 3 zeroDraws constExp quadState demoModel demoGen).model =
      reptileUpdate quadState.metaModelStateDict
        (quadState.taskModels ++ [demoModel]) quadState.alpha :=
  ⟨((epoch_schedule_scenario quadState demoModel 10 1 zeroDraws constExp
      demoGen 4 (by decide) (by decide)).1 (Or.inr rfl)).2.1,
   (epoch_schedule_scenario quadState demoModel 10 1 zeroDraws constExp
      demoGen 3 (by decide) (by decide)).2.2.1 (Or.inl rfl)⟩

/-- A fallible elementwise mapping fails as soon as one element fails. -/
theorem optionMapList_eq_none {α β : Type} (f : α → Option β) :
    ∀ (l : List α) (x : α), x ∈ l → f x = none → optionMapList f l = none := by
  intro l
  induction l with
  | nil => intro x hx _; cases hx
  | cons y ys ih =>
    intro x hx hf
    rcases List.mem_cons.1 hx with rfl | hmem
    · unfold optionMapList
      rw [hf]
    · unfold optionMapList
      rw [ih x hmem hf]
      cases f y <;> rfl

/-- C8: if some task snapshot is missing a parameter key present in
`meta_model_state_dict`, the outer-loop aggregation fails (a Python
`KeyError`, modelled by `none`) instead of silently skipping the key,
so no updated state dict is produced to load into the live model. -/
theorem aggregation_missing_key_fails (meta : StateDict)
    (taskModels : List StateDict) (alpha : ℚ) (kv : String × ℚ)
    (fw : StateDict) (hkv : kv ∈ meta) (hfw : fw ∈ taskModels)
    (hmiss : sdGet fw kv.1 = none) :
    reptileUpdateChecked meta taskModels alpha = none := by
  unfold reptileUpdateChecked
  apply optionMapList_eq_none _ _ kv hkv
  have hinner :
      optionMapList (fun fw' => (sdGet fw' kv.1).map (fun v => v - kv.2))
        taskModels = none := by
    apply optionMapList_eq_none _ _ fw hfw
    rw [hmiss]
    rfl
  rw [hinner]
  rfl

/-- Witness for C8: one key, one task snapshot that lacks it. -/
theorem aggregation_missing_key_fails_witness :
    reptileUpdateChecked [("a", (1 : ℚ))] [[]] 1 = none :=
  aggregation_missing_key_fails [("a", 1)] [[]] 1 ("a", 1) []
    (List.mem_singleton.2 rfl) (List.mem_singleton.2 rfl) rfl

/-- C9: after a task-sampler call, `selected_tasks` is an ordered list
of exactly `num_tasks` elements, each drawn from the enumerated task set
(hence a size `n` with `min_size <= n <= max_size`), and the weight
vector assigns the same weight `1/num_tasks` to every drawn task (the
softmax of a uniform vector: the weighting mechanism is a uniform
no-op). `expf` abstracts the library exponential, which is nonzero. -/
theorem sample_task_uniform {K : Type} (draws : ℕ → ℕ) (expf : ℚ → ℚ)
    (s : MetaState K) (minSize maxSize : ℕ)
    (hset : s.taskSet = taskSetOf minSize maxSize)
    (hle : minSize ≤ maxSize) (hexp : expf 1 ≠ 0) :
    (sampleTask draws expf s).selectedTasks.length = s.numTasks ∧
    (∀ x ∈ (sampleTask draws expf s).selectedTasks,
      x ∈ s.taskSet ∧ minSize ≤ x ∧ x ≤ maxSize) ∧
    (∀ i, i < s.numTasks →
      (sampleTask draws expf s).w.get? i = some (1 / (s.numTasks : ℚ))) := by
  have hlenpos : 0 < s.taskSet.length := by
    rw [hset]
    unfold taskSetOf
    rw [List.length_range']
    omega
  refine ⟨by simp [sampleTask], ?_, ?_⟩
  · intro x hx
    simp only [sampleTask, List.mem_map, List.mem_range] at hx
    obtain ⟨b, _, hbx⟩ := hx
    have hidx : draws b % s.taskSet.length < s.taskSet.length :=
      Nat.mod_lt _ hlenpos
    have hmem : x ∈ s.taskSet := by
      rw [← hbx, List.getD_eq_getElem s.taskSet 0 hidx]
      exact List.getElem_mem hidx
    refine ⟨hmem, ?_⟩
    rw [hset] at hmem
    unfold taskSetOf at hmem
    rw [List.mem_range'_1] at hmem
    omega
  · intro i hi
    have hn0 : s.numTasks ≠ 0 := by omega
    have hn : (s.numTasks : ℚ) ≠ 0 := Nat.cast_ne_zero.2 hn0
    have hw : (sampleTask draws expf s).w =
        List.replicate s.numTasks
          (expf 1 / ((s.numTasks : ℚ) * expf 1)) := by
      simp [sampleTask, softmax, List.map_replicate, List.sum_replicate,
        nsmul_eq_mul]
    rw [hw, List.get?_eq_getElem?, List.getElem?_replicate, if_pos hi]
    congr 1
    field_simp
    ring

/-- Witness for C9 on a degenerate single-size task set with
`num_tasks = 2`. -/
theorem sample_task_uniform_witness :
    (sampleTask zeroDraws constExp pairState).selectedTasks.length =
      pairState.numTasks :=
  (sample_task_uniform zeroDraws constExp pairState 10 10 rfl (by decide)
    (by decide)).1

/-- C10: at fit start the callback samples `num_tasks` tasks and then
overwrites `selected_tasks[0]` with the generator's current `num_loc`;
the first trained task is therefore the generator's preconfigured size,
which need not belong to the enumerated task set
`[min_size, max_size]`. -/
theorem fit_start_overrides_first_task {K : Type} (draws : ℕ → ℕ)
    (expf : ℚ → ℚ) (genNumLoc : ℕ) (s : MetaState K)
    (minSize maxSize : ℕ) (hpos : 0 < s.numTasks)
    (hset : s.taskSet = taskSetOf minSize maxSize) :
    (onFitStart draws expf genNumLoc s).selectedTasks.head? =
      some genNumLoc ∧
    (genNumLoc < minSize ∨ maxSize < genNumLoc →
      genNumLoc ∉ s.taskSet) := by
  constructor
  · have hne : (sampleTask draws expf s).selectedTasks ≠ [] := by
      simp only [sampleTask]
      intro hnil
      have := congrArg List.length hnil
      simp at this
      omega
    obtain ⟨a, t, hcons⟩ := List.exists_cons_of_ne_nil hne
    simp only [onFitStart]
    rw [hcons, List.set_cons_zero]
    rfl
  · intro hout hmem
    rw [hset] at hmem
    unfold taskSetOf at hmem
    rw [List.mem_range'_1] at hmem
    omega

/-- Witness for C10: generator size 50 with task set built from
`min_size = max_size = 10`. -/
theorem fit_start_overrides_first_task_witness :
    (onFitStart zeroDraws constExp 50 soloState).selectedTasks.head? =
      some 50 ∧
    (50 < 10 ∨ 10 < 50 → (50 : ℕ) ∉ soloState.taskSet) :=
  fit_start_overrides_first_task zeroDraws constExp 50 soloState 10 10
    (by decide) rfl
